import Mathlib

/-!
Verification of the YT-Valorant-VODs pipeline (shallow embedding).

The repository is a sequential pipeline: scan a directory for .mp4 files,
filter them by duration and age, filter out paths already logged in an Excel
spreadsheet, fetch the player's match list page by page from the Valorant
stats API, pair local videos with matches by timestamp proximity, fetch the
per-match rank, upload the paired videos to YouTube and append one row per
uploaded video to the spreadsheet.

External collaborators (HTTP, cv2 video probing, os.path, openpyxl cell
styling, timezone conversion) are modelled as oracle parameters: e.g.
`utc : String → Int` stands for `timeUtils.utc_to_unix`, and a function
`Nat → Nat → Option MLResponse` stands for the stats-API endpoint
(page size and page number mapped to the decoded JSON body, `none` for an
HTTP error, in which case `valorant_api.get_matchlist` returns None).
-/

namespace YTVODs

/-- One entry of the matchlist returned by the stats API
(`matchlist["data"][i]` in `utils.py`), restricted to the fields the
program reads: `meta.id`, `meta.started_at`, `meta.map.name`,
`stats.team`, `stats.character.name`, `teams.red`, `teams.blue`. -/
structure VMatch where
  meta_id : String
  started_at : String
  map_name : String
  stats_team : String
  stats_character : String
  teams_red : Nat
  teams_blue : Nat
deriving DecidableEq, Repr

/-- A pairing `{"video_path": ..., "match_data": ...}` produced by
`utils.compare_matchlist_with_video_dates`. -/
structure Pairing where
  video_path : String
  match_data : VMatch
deriving DecidableEq, Repr

/-- Inner loop of `compare_matchlist_with_video_dates`: for one match with
unix start time `match_date`, walk the `localVideoDates` dict items in
order and collect a pairing for every video whose creation date is within
`time_threshold` of the match start (`abs(video_date - match_date) <
time_threshold`). -/
def pairingsForMatch (m : VMatch) (match_date : Int)
    (localVideoDates : List (String × Int)) (time_threshold : Int) : List Pairing :=
  match localVideoDates with
  | [] => []
  | (video_path, video_date) :: rest =>
    if |video_date - match_date| < time_threshold then
      ⟨video_path, m⟩ :: pairingsForMatch m match_date rest time_threshold
    else
      pairingsForMatch m match_date rest time_threshold

/-- `utils.compare_matchlist_with_video_dates`: outer loop over the matches
of the matchlist, inner loop over the video dates dict (modelled as an
association list, preserving the dict's insertion order); the found
pairings are appended to one accumulator list, i.e. concatenated in loop
order.  `utc` models `timeUtils.utc_to_unix`.  The time threshold defaults
to `60 * 5` seconds as in the source. -/
def compare_matchlist_with_video_dates (utc : String → Int) (matchlist : List VMatch)
    (localVideoDates : List (String × Int)) (time_threshold : Int := 60 * 5) : List Pairing :=
  match matchlist with
  | [] => []
  | m :: rest =>
    pairingsForMatch m (utc m.started_at) localVideoDates time_threshold ++
      compare_matchlist_with_video_dates utc rest localVideoDates time_threshold

theorem pairingsForMatch_eq_filterMap (m : VMatch) (md : Int)
    (lvd : List (String × Int)) (thr : Int) :
    pairingsForMatch m md lvd thr =
      (lvd.filter (fun p => |p.2 - md| < thr)).map (fun p => ⟨p.1, m⟩) := by
  induction lvd with
  | nil => rfl
  | cons p rest ih =>
    by_cases h : |p.2 - md| < thr <;>
      simp [pairingsForMatch, List.filter_cons, h, ih]

theorem mem_pairingsForMatch (m m' : VMatch) (md : Int)
    (lvd : List (String × Int)) (thr : Int) (v : String) :
    (⟨v, m'⟩ : Pairing) ∈ pairingsForMatch m md lvd thr ↔
      m' = m ∧ ∃ d, (v, d) ∈ lvd ∧ |d - md| < thr := by
  rw [pairingsForMatch_eq_filterMap]
  simp only [List.mem_map, List.mem_filter, decide_eq_true_eq]
  constructor
  · rintro ⟨⟨v', d⟩, ⟨hmem, hlt⟩, heq⟩
    cases heq
    exact ⟨rfl, d, hmem, hlt⟩
  · rintro ⟨rfl, d, hmem, hlt⟩
    exact ⟨(v, d), ⟨hmem, hlt⟩, rfl⟩

theorem mem_compare_matchlist (utc : String → Int) (matchlist : List VMatch)
    (lvd : List (String × Int)) (thr : Int) (v : String) (m : VMatch) :
    (⟨v, m⟩ : Pairing) ∈ compare_matchlist_with_video_dates utc matchlist lvd thr ↔
      m ∈ matchlist ∧ ∃ d, (v, d) ∈ lvd ∧ |d - utc m.started_at| < thr := by
  induction matchlist with
  | nil => simp [compare_matchlist_with_video_dates]
  | cons m' rest ih =>
    simp only [compare_matchlist_with_video_dates, List.mem_append, ih,
      mem_pairingsForMatch, List.mem_cons]
    constructor
    · rintro (⟨rfl, hd⟩ | ⟨hm, hd⟩)
      · exact ⟨Or.inl rfl, hd⟩
      · exact ⟨Or.inr hm, hd⟩
    · rintro ⟨rfl | hm, hd⟩
      · exact Or.inl ⟨rfl, hd⟩
      · exact Or.inr ⟨hm, hd⟩

theorem count_pairingsForMatch_of_nodup (m : VMatch) (md : Int)
    (lvd : List (String × Int)) (thr : Int) (v : String) (d : Int)
    (hkeys : (lvd.map Prod.fst).Nodup) (hmem : (v, d) ∈ lvd)
    (hlt : |d - md| < thr) :
    (pairingsForMatch m md lvd thr).count ⟨v, m⟩ = 1 := by
  induction lvd with
  | nil => simp at hmem
  | cons p rest ih =>
    simp only [List.map_cons, List.nodup_cons] at hkeys
    rcases List.mem_cons.mp hmem with heq | hrest
    · cases heq
      rw [pairingsForMatch, if_pos hlt]
      rw [List.count_cons_self]
      have hzero : (pairingsForMatch m md rest thr).count ⟨v, m⟩ = 0 := by
        rw [List.count_eq_zero]
        intro hc
        rcases (mem_pairingsForMatch m m md rest thr v).mp hc with ⟨_, d', hd', _⟩
        exact hkeys.1 (List.mem_map.mpr ⟨(v, d'), hd', rfl⟩)
      omega
    · have hvne : p.1 ≠ v := by
        intro h
        exact hkeys.1 (h ▸ List.mem_map.mpr ⟨(v, d), hrest, rfl⟩)
      have hcount := ih hkeys.2 hrest
      rw [pairingsForMatch]
      by_cases hp : |p.2 - md| < thr
      · rw [if_pos hp, List.count_cons_of_ne (by simp [Ne.symm hvne]) _, hcount]
      · rw [if_neg hp, hcount]

theorem count_pairingsForMatch_of_ne (m m' : VMatch) (md : Int)
    (lvd : List (String × Int)) (thr : Int) (v : String) (hne : m' ≠ m) :
    (pairingsForMatch m md lvd thr).count ⟨v, m'⟩ = 0 := by
  rw [List.count_eq_zero]
  intro hc
  exact hne ((mem_pairingsForMatch m m' md lvd thr v).mp hc).1

/-- **C1.** `compare_matchlist_with_video_dates` produces the pairing
`{video_path := v, match_data := m}` iff `m` is in the matchlist and the
video `v` has a logged creation date `d` with `|d - S| < time_threshold`
where `S` is the match's unix start time; the threshold defaults to
`60 * 5 = 300` seconds; and (dict keys being distinct, matchlist entries
being distinct) each (match, video) pair satisfying the inequality yields
exactly one pairing entry. -/
theorem compare_matchlist_pairing_iff (utc : String → Int) (matchlist : List VMatch)
    (lvd : List (String × Int)) (thr : Int) (v : String) (m : VMatch) :
    ((⟨v, m⟩ : Pairing) ∈ compare_matchlist_with_video_dates utc matchlist lvd thr ↔
      m ∈ matchlist ∧ ∃ d, (v, d) ∈ lvd ∧ |d - utc m.started_at| < thr)
    ∧ compare_matchlist_with_video_dates utc matchlist lvd =
        compare_matchlist_with_video_dates utc matchlist lvd 300
    ∧ ((lvd.map Prod.fst).Nodup → matchlist.Nodup →
        ∀ d, (v, d) ∈ lvd → m ∈ matchlist → |d - utc m.started_at| < thr →
        (compare_matchlist_with_video_dates utc matchlist lvd thr).count ⟨v, m⟩ = 1) := by
  refine ⟨mem_compare_matchlist utc matchlist lvd thr v m, rfl, ?_⟩
  intro hkeys hml d hd hm hlt
  induction matchlist with
  | nil => simp at hm
  | cons m' rest ih =>
    rw [List.nodup_cons] at hml
    rw [compare_matchlist_with_video_dates, List.count_append]
    rcases List.mem_cons.mp hm with rfl | hrest
    · have h1 := count_pairingsForMatch_of_nodup m (utc m.started_at) lvd thr v d hkeys hd hlt
      have h0 : (compare_matchlist_with_video_dates utc rest lvd thr).count ⟨v, m⟩ = 0 := by
        rw [List.count_eq_zero]
        intro hc
        exact hml.1 ((mem_compare_matchlist utc rest lvd thr v m).mp hc).1
      omega
    · have hne : m ≠ m' := fun h => hml.1 (h ▸ hrest)
      have h0 := count_pairingsForMatch_of_ne m' m (utc m'.started_at) lvd thr v hne
      have h1 := ih hml.2 hrest
      omega

/-- Witness for C1 at a concrete input. -/
def mAscent : VMatch :=
  { meta_id := "m1", started_at := "2023-06-13T00:00:00", map_name := "Ascent",
    stats_team := "Red", stats_character := "Jett", teams_red := 13, teams_blue := 4 }

theorem compare_matchlist_pairing_iff_witness :
    ((⟨"v.mp4", mAscent⟩ : Pairing) ∈
        compare_matchlist_with_video_dates (fun _ => 100) [mAscent] [("v.mp4", 150)] 300)
    ∧ (compare_matchlist_with_video_dates (fun _ => 100) [mAscent]
        [("v.mp4", 150)] 300).count ⟨"v.mp4", mAscent⟩ = 1 :=
  ⟨(compare_matchlist_pairing_iff (fun _ => 100) [mAscent] [("v.mp4", 150)] 300
      "v.mp4" mAscent).1.mpr ⟨by simp, 150, by simp, by decide⟩,
   (compare_matchlist_pairing_iff (fun _ => 100) [mAscent] [("v.mp4", 150)] 300
      "v.mp4" mAscent).2.2 (by decide) (by decide) 150 (by decide) (by decide) (by decide)⟩

/-! ## Excel schema (`schemas/excelMatchEntry.py`) and spreadsheet
(`excelSpreadsheet.py`)

A worksheet is modelled as a list of rows; a cell value is `Option String`
(`none` for an empty cell / Python `None`).  Cell styling (fonts, fills)
and saving to disk are out of scope. -/

/-- The fields of an `ExcelMatchEntry` (the members of the Python enum
`ExcelMatchEntryOrder`). -/
inductive EMEField where
  | matchId | date | matchResult | score | agent | map | rank | YTLink | localPath
deriving DecidableEq, Repr

/-- `ExcelMatchEntryOrder`: the `.value` of each enum member, i.e. the
column index of the field. -/
def ExcelMatchEntryOrder : EMEField → Nat
  | .matchId => 0
  | .date => 1
  | .matchResult => 2
  | .score => 3
  | .agent => 4
  | .map => 5
  | .rank => 6
  | .YTLink => 7
  | .localPath => 8

/-- `ExcelMatchEntryOrder(i)`: look an enum member up by its value
(Python raises for an invalid value; the loops only use `0..8`). -/
def ExcelMatchEntryOrderOfValue : Nat → Option EMEField
  | 0 => some .matchId
  | 1 => some .date
  | 2 => some .matchResult
  | 3 => some .score
  | 4 => some .agent
  | 5 => some .map
  | 6 => some .rank
  | 7 => some .YTLink
  | 8 => some .localPath
  | _ => none

/-- `len(ExcelMatchEntryOrder)` in the Python source. -/
def ExcelMatchEntryOrderLen : Nat := 9

/-- The `printableTitles` dict of `excelMatchEntry.py`. -/
def printableTitles : EMEField → String
  | .matchId => "Riot Match ID"
  | .date => "Date"
  | .matchResult => "Match Result"
  | .score => "Score"
  | .agent => "Agent"
  | .map => "Map"
  | .rank => "Rank"
  | .YTLink => "YouTube Link"
  | .localPath => "Local Path"

/-- `ExcelMatchEntry`: the per-match record written to the spreadsheet.
`rank` may be `None` (player not found in the match data), `YTLink` and
`localPath` default to `None` in the Python constructor. -/
structure ExcelMatchEntry where
  matchId : String
  date : String
  matchResult : String
  score : String
  agent : String
  map : String
  rank : Option String
  YTLink : Option String := none
  localPath : Option String := none
deriving DecidableEq, Repr

/-- Attribute lookup `self.__dict__[ExcelMatchEntryOrder(i).name]`,
as the cell value the field contributes to a row. -/
def fieldValue (e : ExcelMatchEntry) : EMEField → Option String
  | .matchId => some e.matchId
  | .date => some e.date
  | .matchResult => some e.matchResult
  | .score => some e.score
  | .agent => some e.agent
  | .map => some e.map
  | .rank => e.rank
  | .YTLink => e.YTLink
  | .localPath => e.localPath

/-- `ExcelMatchEntry.asTuple`: loop `i` over `range(len(ExcelMatchEntryOrder))`
and collect the attribute named by `ExcelMatchEntryOrder(i)`. -/
def asTuple (e : ExcelMatchEntry) : List (Option String) :=
  (List.range ExcelMatchEntryOrderLen).filterMap
    (fun i => (ExcelMatchEntryOrderOfValue i).map (fieldValue e))

/-- `ExcelMatchEntry.getPrintableTitlesInOrder`: the column titles in
enum-value order. -/
def getPrintableTitlesInOrder : List String :=
  (List.range ExcelMatchEntryOrderLen).filterMap
    (fun i => (ExcelMatchEntryOrderOfValue i).map printableTitles)

/-- `ExcelSpreadsheet.create`: a fresh workbook whose single sheet holds
the one header row of printable titles (styling out of scope). -/
def create : List (List (Option String)) :=
  [getPrintableTitlesInOrder.map some]

/-- `ExcelSpreadsheet.writeMatchesToExcel`: append one row per match, the
row being `match.asTuple()` (the result-cell fill colour is out of scope). -/
def writeMatchesToExcel (sheet : List (List (Option String)))
    (ms : List ExcelMatchEntry) : List (List (Option String)) :=
  sheet ++ ms.map asTuple

/-- The alphabet string `"ABCDEFGHIJKLMNOPQRSTUVWXYZ"` indexed in
`filterOutProcessedMatches`. -/
def alphabetChars : List Char := "ABCDEFGHIJKLMNOPQRSTUVWXYZ".toList

/-- The 0-based column index read back by `filterOutProcessedMatches`:
the letter `alphabet[ExcelMatchEntryOrder.localPath.value]` (that is `"I"`),
converted to the index of that column (openpyxl's `sheet["I"]`). -/
def localPathColIdx : Nat :=
  alphabetChars.indexOf (alphabetChars.getD (ExcelMatchEntryOrder .localPath) ' ')

/-- The cell values of the local-path column, header row dropped
(`[cell.value for cell in sheet["I"]][1:]`); a row shorter than the column
index contributes an empty cell (`None`), as openpyxl does. -/
def localPathColumn (sheet : List (List (Option String))) : List (Option String) :=
  (sheet.map (fun r => r.getD localPathColIdx none)).drop 1

/-- `ExcelSpreadsheet.filterOutProcessedMatches`: keep the file paths that
do not occur in the local-path column of the sheet. -/
def filterOutProcessedMatches (sheet : List (List (Option String)))
    (mp4_files : List String) : List String :=
  let localPaths := localPathColumn sheet
  mp4_files.filter (fun video => decide ((some video) ∉ localPaths))

theorem asTuple_eq (e : ExcelMatchEntry) :
    asTuple e = [some e.matchId, some e.date, some e.matchResult, some e.score,
      some e.agent, some e.map, e.rank, e.YTLink, e.localPath] := rfl

theorem localPathColIdx_eq : localPathColIdx = 8 := by decide

theorem localPathColumn_write (sheet : List (List (Option String)))
    (ms : List ExcelMatchEntry) (hsheet : sheet ≠ []) :
    localPathColumn (writeMatchesToExcel sheet ms) =
      localPathColumn sheet ++ ms.map (·.localPath) := by
  unfold localPathColumn writeMatchesToExcel
  rw [List.map_append, List.drop_append_of_le_length
    (by cases sheet <;> simp_all)]
  congr 1
  rw [List.map_map]
  refine List.map_congr_left (fun e _ => ?_)
  simp [Function.comp, asTuple_eq, localPathColIdx_eq]

theorem mem_filterOutProcessedMatches (sheet : List (List (Option String)))
    (mp4_files : List String) (v : String) :
    v ∈ filterOutProcessedMatches sheet mp4_files ↔
      v ∈ mp4_files ∧ some v ∉ localPathColumn sheet := by
  unfold filterOutProcessedMatches
  simp [List.mem_filter]

/-- **C9.** Column-alignment invariant: `asTuple` is a 9-tuple whose
component at index `ExcelMatchEntryOrder f` is the value of field `f`;
`getPrintableTitlesInOrder` lists the 9 column titles in that same order,
and `create` makes them the header row; the column read back by
`filterOutProcessedMatches` is index `ExcelMatchEntryOrder.localPath = 8`
(column letter `I`), which is exactly where `writeMatchesToExcel` puts the
`localPath` of every appended entry. -/
theorem excel_column_alignment (e : ExcelMatchEntry) :
    (asTuple e).length = 9
    ∧ (∀ f : EMEField, (asTuple e).getD (ExcelMatchEntryOrder f) none = fieldValue e f)
    ∧ getPrintableTitlesInOrder.length = 9
    ∧ (∀ f : EMEField,
        getPrintableTitlesInOrder.getD (ExcelMatchEntryOrder f) "" = printableTitles f)
    ∧ ExcelMatchEntryOrder .localPath = 8
    ∧ alphabetChars.getD (ExcelMatchEntryOrder .localPath) ' ' = 'I'
    ∧ localPathColIdx = 8
    ∧ create = [getPrintableTitlesInOrder.map some]
    ∧ (∀ sheet ms, sheet ≠ [] →
        localPathColumn (writeMatchesToExcel sheet ms) =
          localPathColumn sheet ++ ms.map (·.localPath)) := by
  refine ⟨by simp [asTuple_eq], ?_, by decide, ?_, by decide, by decide, by decide, rfl,
    fun sheet ms h => localPathColumn_write sheet ms h⟩
  · intro f
    cases f <;> simp [asTuple_eq, ExcelMatchEntryOrder, fieldValue]
  · intro f
    cases f <;> rfl

/-- A concrete entry for the spreadsheet witnesses. -/
def entryA : ExcelMatchEntry :=
  { matchId := "m1", date := "Jun 13, 2023", matchResult := "Win", score := "13-4",
    agent := "Jett", map := "Ascent", rank := some "Gold 1",
    YTLink := none, localPath := some "C:\\vods\\a.mp4" }

theorem excel_column_alignment_witness :
    (asTuple entryA).getD (ExcelMatchEntryOrder .localPath) none = some "C:\\vods\\a.mp4" ∧
    localPathColumn (writeMatchesToExcel create [entryA]) = [some "C:\\vods\\a.mp4"] :=
  ⟨(excel_column_alignment entryA).2.1 EMEField.localPath,
   by rw [(excel_column_alignment entryA).2.2.2.2.2.2.2.2 create [entryA] (by decide)]; rfl⟩

/-- **C2.** Write-then-filter round trip: after `writeMatchesToExcel`
appends the given entries to a sheet (which, having been produced by
`open`/`create`, holds at least the header row), `filterOutProcessedMatches`
returns exactly those input paths that do not occur in the sheet's
Local Path column; in particular every `localPath` of a previously written
entry is excluded, so an unchanged re-run filters out all previously
logged local paths. -/
theorem write_then_filter (sheet : List (List (Option String)))
    (entries : List ExcelMatchEntry) (paths : List String) (hsheet : sheet ≠ []) :
    (∀ v, v ∈ filterOutProcessedMatches (writeMatchesToExcel sheet entries) paths ↔
      v ∈ paths ∧ some v ∉ localPathColumn (writeMatchesToExcel sheet entries))
    ∧ (∀ e ∈ entries, ∀ p, e.localPath = some p →
        p ∉ filterOutProcessedMatches (writeMatchesToExcel sheet entries) paths) := by
  refine ⟨fun v => mem_filterOutProcessedMatches _ paths v, ?_⟩
  intro e he p hp hmem
  rcases (mem_filterOutProcessedMatches _ paths p).mp hmem with ⟨-, hnot⟩
  apply hnot
  rw [localPathColumn_write sheet entries hsheet]
  exact List.mem_append_right _ (List.mem_map.mpr ⟨e, he, hp⟩)

theorem write_then_filter_witness :
    create ≠ [] ∧
    "C:\\vods\\a.mp4" ∉
      filterOutProcessedMatches (writeMatchesToExcel create [entryA]) ["C:\\vods\\a.mp4"] :=
  ⟨by decide,
   (write_then_filter create [entryA] ["C:\\vods\\a.mp4"] (by decide)).2 entryA
     (by decide) "C:\\vods\\a.mp4" rfl⟩

/-! ## Video filters (`videoUtils.py`)

`cv2.VideoCapture` is modelled by an oracle `probe : String → Option (ℚ × ℚ)`
giving, for an openable video, its frames-per-second (`CAP_PROP_FPS`) and
frame count (`CAP_PROP_FRAME_COUNT`); `none` when `cap.isOpened()` is false.
`os.path.getctime` composed with `int(...)` is the oracle
`ctime : String → Int`. -/

/-- `videoUtils.filter_out_short_videos`: drop unopenable videos, compute
`duration = frame_count / fps`, skip the video when `duration < minDuration`,
otherwise keep it, preserving input order. -/
def filter_out_short_videos (probe : String → Option (ℚ × ℚ))
    (mp4_files : List String) (minDuration : Int) : List String :=
  match mp4_files with
  | [] => []
  | video_path :: rest =>
    match probe video_path with
    | none => filter_out_short_videos probe rest minDuration
    | some (fps, frameCount) =>
      if frameCount / fps < (minDuration : ℚ) then
        filter_out_short_videos probe rest minDuration
      else
        video_path :: filter_out_short_videos probe rest minDuration

/-- `videoUtils.filter_out_old_videos`: skip a video when its integer
creation timestamp is below `minCreationDate`, otherwise keep it,
preserving input order. -/
def filter_out_old_videos (ctime : String → Int)
    (mp4_files : List String) (minCreationDate : Int) : List String :=
  match mp4_files with
  | [] => []
  | video_path :: rest =>
    if ctime video_path < minCreationDate then
      filter_out_old_videos ctime rest minCreationDate
    else
      video_path :: filter_out_old_videos ctime rest minCreationDate

/-- The keep-predicate of the duration filter: openable and
`minDuration ≤ frame_count / fps`. -/
def keepLongVideo (probe : String → Option (ℚ × ℚ)) (minDuration : Int)
    (video_path : String) : Bool :=
  match probe video_path with
  | none => false
  | some (fps, frameCount) => decide ((minDuration : ℚ) ≤ frameCount / fps)

theorem filter_out_short_videos_eq_filter (probe : String → Option (ℚ × ℚ))
    (mp4_files : List String) (minDuration : Int) :
    filter_out_short_videos probe mp4_files minDuration =
      mp4_files.filter (keepLongVideo probe minDuration) := by
  induction mp4_files with
  | nil => rfl
  | cons p rest ih =>
    rcases hp : probe p with - | ⟨fps, fc⟩
    · simp [filter_out_short_videos, List.filter_cons, keepLongVideo, hp, ih]
    · by_cases hd : fc / fps < (minDuration : ℚ)
      · simp [filter_out_short_videos, List.filter_cons, keepLongVideo, hp, hd,
          not_le.mpr hd, ih]
      · simp [filter_out_short_videos, List.filter_cons, keepLongVideo, hp, hd,
          not_lt.mp hd, ih]

theorem filter_out_old_videos_eq_filter (ctime : String → Int)
    (mp4_files : List String) (minCreationDate : Int) :
    filter_out_old_videos ctime mp4_files minCreationDate =
      mp4_files.filter (fun v => decide (minCreationDate ≤ ctime v)) := by
  induction mp4_files with
  | nil => rfl
  | cons p rest ih =>
    rw [filter_out_old_videos, List.filter_cons]
    by_cases hd : ctime p < minCreationDate
    · simp [hd, not_le.mpr hd, ih]
    · simp [hd, not_lt.mp hd, ih]

/-- **C7.** The duration and age filters each return the subsequence of
their input, in input order, that meets the threshold with boundary values
kept: `filter_out_short_videos` keeps exactly the openable videos with
`frame_count / fps ≥ minDuration` (unopenable ones are dropped), and
`filter_out_old_videos` keeps exactly the videos with integer creation
timestamp `≥ minCreationDate`. -/
theorem video_filters_spec (probe : String → Option (ℚ × ℚ))
    (ctime : String → Int) (mp4_files : List String) (minDuration minCreationDate : Int) :
    (filter_out_short_videos probe mp4_files minDuration =
        mp4_files.filter (keepLongVideo probe minDuration))
    ∧ (filter_out_short_videos probe mp4_files minDuration).Sublist mp4_files
    ∧ (∀ v, v ∈ filter_out_short_videos probe mp4_files minDuration ↔
        v ∈ mp4_files ∧ ∃ fps frameCount, probe v = some (fps, frameCount) ∧
          (minDuration : ℚ) ≤ frameCount / fps)
    ∧ (filter_out_old_videos ctime mp4_files minCreationDate =
        mp4_files.filter (fun v => decide (minCreationDate ≤ ctime v)))
    ∧ (filter_out_old_videos ctime mp4_files minCreationDate).Sublist mp4_files
    ∧ (∀ v, v ∈ filter_out_old_videos ctime mp4_files minCreationDate ↔
        v ∈ mp4_files ∧ minCreationDate ≤ ctime v) := by
  refine ⟨filter_out_short_videos_eq_filter probe mp4_files minDuration,
    (filter_out_short_videos_eq_filter probe mp4_files minDuration) ▸
      List.filter_sublist mp4_files, ?_,
    filter_out_old_videos_eq_filter ctime mp4_files minCreationDate,
    (filter_out_old_videos_eq_filter ctime mp4_files minCreationDate) ▸
      List.filter_sublist mp4_files, ?_⟩
  · intro v
    rw [filter_out_short_videos_eq_filter, List.mem_filter]
    constructor
    · rintro ⟨hv, hk⟩
      refine ⟨hv, ?_⟩
      unfold keepLongVideo at hk
      rcases hp : probe v with - | ⟨fps, fc⟩
      · rw [hp] at hk; exact absurd hk (by simp)
      · rw [hp] at hk
        exact ⟨fps, fc, rfl, by simpa using hk⟩
    · rintro ⟨hv, fps, fc, hp, hle⟩
      exact ⟨hv, by simp [keepLongVideo, hp, hle]⟩
  · intro v
    rw [filter_out_old_videos_eq_filter, List.mem_filter]
    simp

/-! ## Match result (`utils.getGameResult`) -/

/-- `utils.getGameResult`: pick the player's score (`teams.red` when
`stats.team == "Red"`, `teams.blue` otherwise) and the enemy score,
classify the comparison, and format the score string
`f"{player_score}-{enemy_score}"`. -/
def getGameResult (match_data : VMatch) : String × String :=
  let player_team := match_data.stats_team
  let scores :=
    if player_team = "Red" then (match_data.teams_red, match_data.teams_blue)
    else (match_data.teams_blue, match_data.teams_red)
  let player_score := scores.1
  let enemy_score := scores.2
  let result :=
    if player_score > enemy_score then "Win"
    else if player_score < enemy_score then "Loss"
    else "Draw"
  (result, toString player_score ++ "-" ++ toString enemy_score)

/-- **C8.** `getGameResult` selects the player's score as `teams.red` when
`stats.team = "Red"` and `teams.blue` otherwise, returns `"Win"` iff the
player's score strictly exceeds the enemy score, `"Loss"` iff it is
strictly smaller, `"Draw"` iff they are equal, and the score string is
`"<player score>-<enemy score>"` with the player's team score first. -/
theorem getGameResult_spec (match_data : VMatch) :
    ((getGameResult match_data).1 = "Win" ↔
      (if match_data.stats_team = "Red" then match_data.teams_red
        else match_data.teams_blue) >
      (if match_data.stats_team = "Red" then match_data.teams_blue
        else match_data.teams_red))
    ∧ ((getGameResult match_data).1 = "Loss" ↔
      (if match_data.stats_team = "Red" then match_data.teams_red
        else match_data.teams_blue) <
      (if match_data.stats_team = "Red" then match_data.teams_blue
        else match_data.teams_red))
    ∧ ((getGameResult match_data).1 = "Draw" ↔
      (if match_data.stats_team = "Red" then match_data.teams_red
        else match_data.teams_blue) =
      (if match_data.stats_team = "Red" then match_data.teams_blue
        else match_data.teams_red))
    ∧ (getGameResult match_data).2 =
        toString (if match_data.stats_team = "Red" then match_data.teams_red
          else match_data.teams_blue) ++ "-" ++
        toString (if match_data.stats_team = "Red" then match_data.teams_blue
          else match_data.teams_red) := by
  by_cases hteam : match_data.stats_team = "Red"
  · rcases Nat.lt_trichotomy match_data.teams_blue match_data.teams_red with h | h | h
    · simp [getGameResult, hteam, h, Nat.lt_asymm h, ne_of_gt h]
    · simp [getGameResult, hteam, h, lt_irrefl]
    · simp [getGameResult, hteam, h, Nat.lt_asymm h, ne_of_lt h]
  · rcases Nat.lt_trichotomy match_data.teams_red match_data.teams_blue with h | h | h
    · simp [getGameResult, hteam, h, Nat.lt_asymm h, ne_of_gt h]
    · simp [getGameResult, hteam, h, lt_irrefl]
    · simp [getGameResult, hteam, h, Nat.lt_asymm h, ne_of_lt h]

/-! ## Upload retry (`youtube_api.resumable_upload`)

`request.execute()` is modelled by an oracle `exec : Nat → ExecOutcome`
giving the outcome of the n-th execution attempt (n = 0, 1, ...): either a
response (with or without an `id` key) or a raised `HttpError` with an HTTP
status.  The actual sleep is `random() * 2 ** retry` seconds; the model
records the bound `2 ** retry` of each sleep in a trace list. -/

/-- A response returned by `request.execute()`; the program only inspects
whether it has an `id` key. -/
structure YTResponse where
  hasId : Bool
deriving DecidableEq, Repr

/-- Outcome of one `request.execute()` call. -/
inductive ExecOutcome where
  | ok (resp : YTResponse)
  | err (status : Nat)
deriving DecidableEq, Repr

/-- Result of `resumable_upload`: `done r` is a normal return (`r = none`
models Python's `return None`), `raised s` a re-raised non-server
`HttpError`, `fuelOut` exhaustion of the model's loop fuel. -/
inductive UploadLoopResult where
  | done (r : Option YTResponse)
  | raised (status : Nat)
  | fuelOut
deriving DecidableEq, Repr

/-- The `while response is None` loop of `resumable_upload`.  One fuel unit
per iteration; `retry` counts failures so far; the returned list is the
`max_sleep = 2 ** retry` bound of each sleep performed.  Mirrors the
source: a successful execution returns the response if it has an `id` and
None otherwise; an `HttpError` with status < 500 is re-raised; otherwise
`retry` is incremented, the loop gives up (returns None) once
`retry > retries`, and sleeps at most `2 ** retry` seconds before the next
attempt. -/
def resumable_upload_go (exec : Nat → ExecOutcome) (retries : Nat) :
    Nat → Nat → List Nat → Nat → UploadLoopResult × List Nat
  | _, _, trace, 0 => (.fuelOut, trace)
  | attempt, retry, trace, fuel + 1 =>
    match exec attempt with
    | .ok resp =>
      if resp.hasId then (.done (some resp), trace) else (.done none, trace)
    | .err status =>
      if status < 500 then (.raised status, trace)
      else
        if retries < retry + 1 then (.done none, trace)
        else
          resumable_upload_go exec retries (attempt + 1) (retry + 1)
            (trace ++ [2 ^ (retry + 1)]) fuel

/-- `youtube_api.resumable_upload` with its default `retries=5`:
`retries + 1` loop iterations suffice, since each iteration either returns
or increments `retry`, and the loop returns as soon as `retry > retries`. -/
def resumable_upload (exec : Nat → ExecOutcome) (retries : Nat := 5) :
    UploadLoopResult × List Nat :=
  resumable_upload_go exec retries 0 0 [] (retries + 1)

/-- **C3.** An upload whose execution keeps failing with server errors
(status ≥ 500) is retried with exponential backoff — each sleep bounded by
`2 ^ retry` seconds, the bound doubling each attempt: `[2, 4, 8, 16, 32]` —
for 5 additional attempts (6 executions in total) before `resumable_upload`
reports failure by returning None; a failure with HTTP status < 500 is not
retried: it is raised immediately, with no sleep. -/
theorem resumable_upload_retry_spec (exec : Nat → ExecOutcome) :
    ((∀ n, n < 6 → ∃ s, 500 ≤ s ∧ exec n = .err s) →
      resumable_upload exec = (.done none, [2, 4, 8, 16, 32]))
    ∧ (∀ s, s < 500 → exec 0 = .err s →
      resumable_upload exec = (.raised s, [])) := by
  constructor
  · intro h
    obtain ⟨s0, hs0, he0⟩ := h 0 (by omega)
    obtain ⟨s1, hs1, he1⟩ := h 1 (by omega)
    obtain ⟨s2, hs2, he2⟩ := h 2 (by omega)
    obtain ⟨s3, hs3, he3⟩ := h 3 (by omega)
    obtain ⟨s4, hs4, he4⟩ := h 4 (by omega)
    obtain ⟨s5, hs5, he5⟩ := h 5 (by omega)
    have n0 : ¬ s0 < 500 := by omega
    have n1 : ¬ s1 < 500 := by omega
    have n2 : ¬ s2 < 500 := by omega
    have n3 : ¬ s3 < 500 := by omega
    have n4 : ¬ s4 < 500 := by omega
    have n5 : ¬ s5 < 500 := by omega
    simp [resumable_upload, resumable_upload_go, he0, he1, he2, he3, he4, he5,
      n0, n1, n2, n3, n4, n5]
  · intro s hs he
    simp [resumable_upload, resumable_upload_go, he, hs]

theorem resumable_upload_retry_spec_witness :
    (∀ n, n < 6 → ∃ s, 500 ≤ s ∧ (fun _ => ExecOutcome.err 503) n = .err s) ∧
    resumable_upload (fun _ => ExecOutcome.err 503) = (.done none, [2, 4, 8, 16, 32]) :=
  ⟨fun _ _ => ⟨503, by omega, rfl⟩,
   (resumable_upload_retry_spec (fun _ => ExecOutcome.err 503)).1
     (fun _ _ => ⟨503, by omega, rfl⟩)⟩

/-! ## Upload orchestration (`youtube_api.uploadGameToYoutube`,
`uploadGamesToYoutube`)

`uploadVideo` (OAuth flow, resumable HTTP upload) is modelled by an oracle
`Option String → Option String` from the game's local path to the uploaded
video ID (`none` when the upload fails).  The worker processes of the
multiprocessing pool each append at most one entry to the shared list; the
pool is modelled by running the workers sequentially in submission order
(the properties proved below are insensitive to the append order).
`addVideoToPlaylist` does not affect the shared list and is omitted. -/

/-- `youtube_api.uploadGameToYoutube`: upload the game's video; on failure
return without touching the shared list; on success append a copy of the
game whose `YTLink` is `"https://www.youtube.com/watch?v=" + videoID`. -/
def uploadGameToYoutube (uploadVideo : Option String → Option String)
    (game : ExcelMatchEntry) (sharedGames : List ExcelMatchEntry) :
    List ExcelMatchEntry :=
  match uploadVideo game.localPath with
  | none => sharedGames
  | some videoID =>
    sharedGames ++ [{ game with YTLink := some ("https://www.youtube.com/watch?v=" ++ videoID) }]

/-- The entry a successfully uploaded game contributes to the shared list. -/
def linkedEntry (uploadVideo : Option String → Option String)
    (game : ExcelMatchEntry) : Option ExcelMatchEntry :=
  (uploadVideo game.localPath).map
    (fun videoID =>
      { game with YTLink := some ("https://www.youtube.com/watch?v=" ++ videoID) })

/-- `youtube_api.uploadGamesToYoutube`: resolve the "Valorant VODs"
playlist (`none` from the lookup aborts the whole function with None; the
sentinel `"-1"` means the playlist does not exist yet and one is created),
then upload every game, collecting the link-carrying entries appended to
the shared list. -/
def uploadGamesToYoutube (getPlaylistID : Option String) (createPlaylistID : String)
    (uploadVideo : Option String → Option String) (games : List ExcelMatchEntry) :
    Option (List ExcelMatchEntry) :=
  match getPlaylistID with
  | none => none
  | some pid =>
    let _playlistID := if pid = "-1" then createPlaylistID else pid
    some (games.foldl (fun shared game => uploadGameToYoutube uploadVideo game shared) [])

theorem uploadGames_foldl_eq_filterMap (uploadVideo : Option String → Option String)
    (games : List ExcelMatchEntry) (init : List ExcelMatchEntry) :
    games.foldl (fun shared game => uploadGameToYoutube uploadVideo game shared) init =
      init ++ games.filterMap (linkedEntry uploadVideo) := by
  induction games generalizing init with
  | nil => simp
  | cons g rest ih =>
    rw [List.foldl_cons, List.filterMap_cons, ih]
    unfold uploadGameToYoutube linkedEntry
    rcases uploadVideo g.localPath with - | vid <;> simp

/-- **C5.** When a game's video upload succeeds with video ID `v`, the
entry appended to the shared list by `uploadGameToYoutube` agrees with the
input game on `matchId`, `date`, `matchResult`, `score`, `agent`, `map`,
`rank` and `localPath`, and its `YTLink` is
`"https://www.youtube.com/watch?v=" ++ v`; that entry is among the entries
returned by `uploadGamesToYoutube` (whenever the playlist lookup succeeds
and the game is in the batch) and its `asTuple` row is appended to the
spreadsheet by `writeMatchesToExcel`. -/
theorem uploadGame_success_entry (uploadVideo : Option String → Option String)
    (game : ExcelMatchEntry) (sharedGames : List ExcelMatchEntry) (v : String)
    (h : uploadVideo game.localPath = some v) :
    ∃ e, uploadGameToYoutube uploadVideo game sharedGames = sharedGames ++ [e]
      ∧ e.matchId = game.matchId ∧ e.date = game.date
      ∧ e.matchResult = game.matchResult ∧ e.score = game.score
      ∧ e.agent = game.agent ∧ e.map = game.map ∧ e.rank = game.rank
      ∧ e.localPath = game.localPath
      ∧ e.YTLink = some ("https://www.youtube.com/watch?v=" ++ v)
      ∧ ∀ pid createPid games, game ∈ games →
          ∃ res, uploadGamesToYoutube (some pid) createPid uploadVideo games = some res
            ∧ e ∈ res ∧ ∀ sheet, asTuple e ∈ writeMatchesToExcel sheet res := by
  refine ⟨{ game with YTLink := some ("https://www.youtube.com/watch?v=" ++ v) },
    ?_, rfl, rfl, rfl, rfl, rfl, rfl, rfl, rfl, rfl, ?_⟩
  · unfold uploadGameToYoutube
    rw [h]
  · intro pid createPid games hg
    refine ⟨games.filterMap (linkedEntry uploadVideo), ?_, ?_, ?_⟩
    · unfold uploadGamesToYoutube
      rw [uploadGames_foldl_eq_filterMap]
      simp
    · exact List.mem_filterMap.mpr ⟨game, hg, by simp [linkedEntry, h]⟩
    · intro sheet
      unfold writeMatchesToExcel
      refine List.mem_append_right _ (List.mem_map.mpr ⟨_, ?_, rfl⟩)
      exact List.mem_filterMap.mpr ⟨game, hg, by simp [linkedEntry, h]⟩

theorem uploadGame_success_entry_witness :
    (fun _ => some "dQw4w9WgXcQ") entryA.localPath = some "dQw4w9WgXcQ" ∧
    ∃ e, uploadGameToYoutube (fun _ => some "dQw4w9WgXcQ") entryA [] = [] ++ [e]
      ∧ e.matchId = entryA.matchId ∧ e.date = entryA.date
      ∧ e.matchResult = entryA.matchResult ∧ e.score = entryA.score
      ∧ e.agent = entryA.agent ∧ e.map = entryA.map ∧ e.rank = entryA.rank
      ∧ e.localPath = entryA.localPath
      ∧ e.YTLink = some ("https://www.youtube.com/watch?v=" ++ "dQw4w9WgXcQ")
      ∧ ∀ pid createPid games, entryA ∈ games →
          ∃ res, uploadGamesToYoutube (some pid) createPid
              (fun _ => some "dQw4w9WgXcQ") games = some res
            ∧ e ∈ res ∧ ∀ sheet, asTuple e ∈ writeMatchesToExcel sheet res :=
  ⟨rfl, uploadGame_success_entry (fun _ => some "dQw4w9WgXcQ") entryA [] "dQw4w9WgXcQ" rfl⟩

/-- **C10.** Failed uploads are silently dropped: when `uploadVideo`
returns None for a game, `uploadGameToYoutube` leaves the shared list
untouched (and, being a total function of the model, does not raise);
whenever the playlist lookup succeeds, `uploadGamesToYoutube` returns the
list containing one link-carrying entry for exactly the games whose upload
succeeded, every returned entry has a non-None `YTLink`, and the rows
`writeMatchesToExcel` appends to the spreadsheet are exactly the rows of
those entries — none for a game whose upload failed. -/
theorem failed_uploads_dropped (uploadVideo : Option String → Option String)
    (game : ExcelMatchEntry) (sharedGames : List ExcelMatchEntry)
    (games : List ExcelMatchEntry) (pid createPid : String) :
    (uploadVideo game.localPath = none →
      uploadGameToYoutube uploadVideo game sharedGames = sharedGames)
    ∧ uploadGamesToYoutube (some pid) createPid uploadVideo games =
        some (games.filterMap (linkedEntry uploadVideo))
    ∧ (∀ e ∈ games.filterMap (linkedEntry uploadVideo), e.YTLink ≠ none)
    ∧ (∀ sheet, writeMatchesToExcel sheet (games.filterMap (linkedEntry uploadVideo)) =
        sheet ++ (games.filterMap (linkedEntry uploadVideo)).map asTuple) := by
  refine ⟨?_, ?_, ?_, fun _ => rfl⟩
  · intro h
    unfold uploadGameToYoutube
    rw [h]
  · unfold uploadGamesToYoutube
    rw [uploadGames_foldl_eq_filterMap]
    simp
  · intro e he
    rcases List.mem_filterMap.mp he with ⟨g, -, hg⟩
    rcases hv : uploadVideo g.localPath with - | vid
    · rw [linkedEntry, hv] at hg
      simp at hg
    · rw [linkedEntry, hv] at hg
      simp only [Option.map_some'] at hg
      cases hg
      simp

theorem failed_uploads_dropped_witness :
    (fun _ : Option String => (none : Option String)) entryA.localPath = none ∧
    uploadGameToYoutube (fun _ => none) entryA [] = [] ∧
    uploadGamesToYoutube (some "PL1") "PL2" (fun _ => none) [entryA] = some [] :=
  ⟨rfl,
   (failed_uploads_dropped (fun _ => none) entryA [] [entryA] "PL1" "PL2").1 rfl,
   (failed_uploads_dropped (fun _ => none) entryA [] [entryA] "PL1" "PL2").2.1⟩

/-! ## Paginated match-list fetching (`utils.get_pairings`,
`valorant_api.get_matchlist`)

`get_matchlist` is a thin HTTP wrapper; it is modelled by the oracle
`fetch : Nat → Nat → Option MLResponse` mapping the `size` and `page`
query parameters to the decoded JSON body (`none` for an HTTP error
status, in which case the Python function returns None).  The account
name/tag/region and the game mode are fixed over a run and absorbed into
the oracle.  The `while` loop is given explicit fuel; `outOfFuel` marks
that the given fuel was exhausted (the concrete Python loop would still be
running). -/

/-- The `results` object of a matchlist response. -/
structure MLResults where
  returned : Nat
  after : Nat
deriving DecidableEq, Repr

/-- A matchlist response body: `data` (the matches) and `results`
(pagination info). -/
structure MLResponse where
  data : List VMatch
  results : MLResults
deriving DecidableEq, Repr

/-- Python list indexing `l[i]`, including negative indices counted from
the end; `none` models an `IndexError`.  (`get_pairings` indexes
`matchlist["data"][returnedEntries - 1]`.) -/
def pyGet {α : Type} (l : List α) (i : Int) : Option α :=
  if i < 0 then
    if (l.length : Int) + i < 0 then none else l.get? ((l.length : Int) + i).toNat
  else l.get? i.toNat

/-- `min(...)` over a Python list (total on nonempty lists; `get_pairings`
applies it to `localVideoDates.values()`). -/
def pyMin : List Int → Int
  | [] => 0
  | v :: rest => rest.foldl min v

/-- Result of `get_pairings`: `ok` with the accumulated pairings,
`apiError` for the `print`-and-`exit()` on a failed matchlist fetch,
`indexError` for an out-of-range `data[returned - 1]`, `valueError` for
`min` of an empty dict, `outOfFuel` when the model's fuel ran out. -/
inductive GPOut where
  | ok (pairings : List Pairing)
  | apiError
  | indexError
  | valueError
  | outOfFuel
deriving DecidableEq, Repr

/-- The `while oldest_local_video_date < oldest_match_date` loop of
`get_pairings`: fetch page `page`, exit on a fetch error, read the last
returned match (`data[returned - 1]`) to update `oldest_match_date`,
append the pairings of this page to the accumulator and stop when
`returned == after`; otherwise continue with the next page number. -/
def get_pairings_go (utc : String → Int) (fetch : Nat → Nat → Option MLResponse)
    (lvd : List (String × Int)) (pageSize : Nat) (thr : Int) (oldestLocal : Int) :
    Int → Nat → List Pairing → Nat → GPOut
  | _, _, _, 0 => .outOfFuel
  | oldestMatch, page, acc, fuel + 1 =>
    if oldestLocal < oldestMatch then
      match fetch pageSize page with
      | none => .apiError
      | some ml =>
        match pyGet ml.data ((ml.results.returned : Int) - 1) with
        | none => .indexError
        | some lastMatch =>
          let acc2 := acc ++ compare_matchlist_with_video_dates utc ml.data lvd thr
          if ml.results.returned = ml.results.after then .ok acc2
          else
            get_pairings_go utc fetch lvd pageSize thr oldestLocal
              (utc lastMatch.started_at) (page + 1) acc2 fuel
    else .ok acc

/-- `utils.get_pairings`: `oldest_local_video_date` is the minimum of the
video creation dates, `oldest_match_date` starts at the current time
(`now` models `time.time()`), pages are requested starting from 1. -/
def get_pairings (utc : String → Int) (fetch : Nat → Nat → Option MLResponse)
    (lvd : List (String × Int)) (pageSize : Nat) (thr : Int) (now : Int)
    (fuel : Nat) : GPOut :=
  if lvd = [] then .valueError
  else
    get_pairings_go utc fetch lvd pageSize thr (pyMin (lvd.map Prod.snd)) now 1 [] fuel

/-- The pairings contributed by one fetched page. -/
def pagePairings (utc : String → Int) (fetch : Nat → Nat → Option MLResponse)
    (lvd : List (String × Int)) (pageSize : Nat) (thr : Int) (p : Nat) : List Pairing :=
  match fetch pageSize p with
  | none => []
  | some ml => compare_matchlist_with_video_dates utc ml.data lvd thr

/-- Concatenation, in page order, of the pairings of `k` consecutive pages
starting at page `p`. -/
def pairingsOfPages (utc : String → Int) (fetch : Nat → Nat → Option MLResponse)
    (lvd : List (String × Int)) (pageSize : Nat) (thr : Int) : Nat → Nat → List Pairing
  | _, 0 => []
  | p, k + 1 =>
    pagePairings utc fetch lvd pageSize thr p ++
      pairingsOfPages utc fetch lvd pageSize thr (p + 1) k

/-- A page the API answers with a non-empty, well-formed body:
`results.returned` reports the number of entries in `data`. -/
def GoodPage (fetch : Nat → Nat → Option MLResponse) (pageSize p : Nat) : Prop :=
  ∃ ml, fetch pageSize p = some ml ∧ ml.data ≠ [] ∧
    ml.results.returned = ml.data.length

/-- A page at which the loop stops: its last match started strictly before
the oldest local video, or the API reports `returned == after`. -/
def StopsAt (utc : String → Int) (fetch : Nat → Nat → Option MLResponse)
    (pageSize : Nat) (oldestLocal : Int) (p : Nat) : Prop :=
  ∀ ml, fetch pageSize p = some ml →
    (∃ lm, ml.data.getLast? = some lm ∧ utc lm.started_at < oldestLocal) ∨
      ml.results.returned = ml.results.after

theorem pyGet_last {α : Type} (l : List α) (h : l ≠ []) :
    pyGet l ((l.length : Int) - 1) = l.getLast? := by
  have hlen : 1 ≤ l.length := List.length_pos.mpr h
  unfold pyGet
  rw [if_neg (by omega)]
  have ht : (((l.length : Int) - 1)).toNat = l.length - 1 := by omega
  rw [ht, List.getLast?_eq_getElem?, List.get?_eq_getElem?]

theorem go_succ (utc : String → Int) (fetch : Nat → Nat → Option MLResponse)
    (lvd : List (String × Int)) (pageSize : Nat) (thr oldestLocal oldestMatch : Int)
    (page : Nat) (acc : List Pairing) (fuel : Nat) :
    get_pairings_go utc fetch lvd pageSize thr oldestLocal oldestMatch page acc (fuel + 1) =
      if oldestLocal < oldestMatch then
        match fetch pageSize page with
        | none => .apiError
        | some ml =>
          match pyGet ml.data ((ml.results.returned : Int) - 1) with
          | none => .indexError
          | some lastMatch =>
            let acc2 := acc ++ compare_matchlist_with_video_dates utc ml.data lvd thr
            if ml.results.returned = ml.results.after then .ok acc2
            else
              get_pairings_go utc fetch lvd pageSize thr oldestLocal
                (utc lastMatch.started_at) (page + 1) acc2 fuel
      else .ok acc := rfl

theorem go_terminates (utc : String → Int) (fetch : Nat → Nat → Option MLResponse)
    (lvd : List (String × Int)) (pageSize : Nat) (thr oldestLocal : Int) :
    ∀ (m page : Nat) (oldestMatch : Int) (acc : List Pairing),
      (∀ p, page ≤ p → p ≤ page + m → GoodPage fetch pageSize p) →
      StopsAt utc fetch pageSize oldestLocal (page + m) →
      ∃ fuel k, k ≤ m + 1 ∧
        get_pairings_go utc fetch lvd pageSize thr oldestLocal oldestMatch page acc fuel =
          .ok (acc ++ pairingsOfPages utc fetch lvd pageSize thr page k) := by
  intro m
  induction m with
  | zero =>
    intro page oldestMatch acc hgood hstop
    by_cases hcond : oldestLocal < oldestMatch
    · obtain ⟨ml, hfetch, hne, hret⟩ := hgood page le_rfl (by omega)
      obtain ⟨lm, hlm⟩ := Option.isSome_iff_exists.mp (List.getLast?_isSome.mpr hne)
      have hpy : pyGet ml.data ((ml.results.returned : Int) - 1) = some lm := by
        rw [hret]
        exact (pyGet_last ml.data hne).trans hlm
      by_cases hafter : ml.results.returned = ml.results.after
      · refine ⟨1, 1, le_rfl, ?_⟩
        rw [go_succ, if_pos hcond, hfetch]
        dsimp only
        rw [hpy]
        dsimp only
        rw [if_pos hafter]
        rw [pairingsOfPages, pairingsOfPages, pagePairings, hfetch, List.append_nil]
      · rcases hstop ml (by rwa [Nat.add_zero]) with ⟨lm', hlm', hold⟩ | h
        · refine ⟨2, 1, le_rfl, ?_⟩
          rw [go_succ, if_pos hcond, hfetch]
          dsimp only
          rw [hpy]
          dsimp only
          rw [if_neg hafter]
          rw [hlm] at hlm'
          cases hlm'
          rw [go_succ, if_neg (by omega)]
          rw [pairingsOfPages, pairingsOfPages, pagePairings, hfetch, List.append_nil]
        · exact absurd h hafter
    · refine ⟨1, 0, by omega, ?_⟩
      rw [go_succ, if_neg hcond, pairingsOfPages, List.append_nil]
  | succ m ih =>
    intro page oldestMatch acc hgood hstop
    by_cases hcond : oldestLocal < oldestMatch
    · obtain ⟨ml, hfetch, hne, hret⟩ := hgood page le_rfl (by omega)
      obtain ⟨lm, hlm⟩ := Option.isSome_iff_exists.mp (List.getLast?_isSome.mpr hne)
      have hpy : pyGet ml.data ((ml.results.returned : Int) - 1) = some lm := by
        rw [hret]
        exact (pyGet_last ml.data hne).trans hlm
      by_cases hafter : ml.results.returned = ml.results.after
      · refine ⟨1, 1, by omega, ?_⟩
        rw [go_succ, if_pos hcond, hfetch]
        dsimp only
        rw [hpy]
        dsimp only
        rw [if_pos hafter]
        rw [pairingsOfPages, pairingsOfPages, pagePairings, hfetch, List.append_nil]
      · obtain ⟨fuel, k, hk, heq⟩ := ih (page + 1) (utc lm.started_at)
          (acc ++ compare_matchlist_with_video_dates utc ml.data lvd thr)
          (fun p h1 h2 => hgood p (by omega) (by omega))
          (by
            have : page + 1 + m = page + (m + 1) := by omega
            rwa [this])
        refine ⟨fuel + 1, k + 1, by omega, ?_⟩
        rw [go_succ, if_pos hcond, hfetch]
        dsimp only
        rw [hpy]
        dsimp only
        rw [if_neg hafter, heq]
        rw [pairingsOfPages, pagePairings, hfetch]
        simp [List.append_assoc]
    · refine ⟨1, 0, by omega, ?_⟩
      rw [go_succ, if_neg hcond, pairingsOfPages, List.append_nil]

/-- **C6.** `get_pairings` fetches the match list page by page with page
numbers 1, 2, 3, ... of size `pageSize`; if a page fetch returns None the
program prints an error and exits (`apiError`); and for every response
sequence in which every returned page up to some page `N` is non-empty
(and reports its entry count in `results.returned`), where page `N` either
contains a last match strictly older than the oldest local video creation
date or reports `results.returned == results.after`, the loop terminates —
with enough fuel it returns `ok`, and the returned pairings are the
concatenation, in page order, of the pairings computed from the fetched
pages `1, ..., k` for some `k ≤ N`. -/
theorem get_pairings_spec (utc : String → Int) (fetch : Nat → Nat → Option MLResponse)
    (lvd : List (String × Int)) (pageSize : Nat) (thr now : Int) (fuel N : Nat) :
    (lvd ≠ [] → pyMin (lvd.map Prod.snd) < now → fetch pageSize 1 = none →
      get_pairings utc fetch lvd pageSize thr now (fuel + 1) = .apiError)
    ∧ (lvd ≠ [] → 1 ≤ N →
        (∀ p, 1 ≤ p → p ≤ N → GoodPage fetch pageSize p) →
        StopsAt utc fetch pageSize (pyMin (lvd.map Prod.snd)) N →
        ∃ fl k, k ≤ N ∧
          get_pairings utc fetch lvd pageSize thr now fl =
            .ok (pairingsOfPages utc fetch lvd pageSize thr 1 k)) := by
  constructor
  · intro hne hmin hfetch
    rw [get_pairings, if_neg hne, go_succ, if_pos hmin, hfetch]
  · intro hne hN hgood hstop
    obtain ⟨fl, k, hk, heq⟩ := go_terminates utc fetch lvd pageSize thr
      (pyMin (lvd.map Prod.snd)) (N - 1) 1 now []
      (fun p h1 h2 => hgood p h1 (by omega))
      (by
        have : 1 + (N - 1) = N := by omega
        rwa [this])
    refine ⟨fl, k, by omega, ?_⟩
    rw [get_pairings, if_neg hne, heq, List.nil_append]

/-- A concrete single-page response sequence for the C6 witness. -/
def fetchW : Nat → Nat → Option MLResponse :=
  fun _ p =>
    if p = 1 then some { data := [mAscent], results := { returned := 1, after := 1 } }
    else none

theorem get_pairings_spec_witness :
    ([("v.mp4", 50)] : List (String × Int)) ≠ [] ∧
    (∃ fl k, k ≤ 1 ∧
      get_pairings (fun _ => 0) fetchW [("v.mp4", 50)] 10 300 100 fl =
        .ok (pairingsOfPages (fun _ => 0) fetchW [("v.mp4", 50)] 10 300 1 k)) :=
  ⟨by decide,
   (get_pairings_spec (fun _ => 0) fetchW [("v.mp4", 50)] 10 300 100 0 1).2
     (by decide) le_rfl
     (fun p h1 h2 => by
       have hp : p = 1 := by omega
       subst hp
       exact ⟨_, rfl, by decide, rfl⟩)
     (fun ml h => Or.inr (by
       have h2 : ({ data := [mAscent], results := { returned := 1, after := 1 } } :
           MLResponse) = ml := Option.some.inj h
       rw [← h2]))⟩

/-! ## Rank lookup (`utils.getRankBeforeMatch`) and the main pipeline
(`main.py`)

`valorant_api.get_match` is modelled by an oracle
`fetchMatch : String → Option (List MatchPlayer)` from the match ID to the
`data.players.all_players` array of the response (`none` for an HTTP
error, on which the program prints an error and exits).  `main` is
modelled as a function of an environment holding the directory scan result
and all oracles; alongside the outcome it returns the list of pipeline
stages performed, in order. -/

/-- One element of `data.players.all_players` in a match response,
restricted to the fields `getRankBeforeMatch` reads. -/
structure MatchPlayer where
  name : String
  tag : String
  currenttier_patched : String
deriving DecidableEq, Repr

/-- `utils.getRankBeforeMatch`: fetch the match; on an API error the
program exits (outer `none`); otherwise return the `currenttier_patched`
of the first player matching the saved name and tagline, or `None` when
the player is not found. -/
def getRankBeforeMatch (fetchMatch : String → Option (List MatchPlayer))
    (gameName tagLine : String) (match_id : String) : Option (Option String) :=
  match fetchMatch match_id with
  | none => none
  | some players =>
    some ((players.find? (fun p => p.name == gameName && p.tag == tagLine)).map
      (fun p => p.currenttier_patched))

/-- `videoUtils.get_video_creation_dates`: the dict from video path to
integer creation date, in input order. -/
def get_video_creation_dates (ctime : String → Int) (videos : List String) :
    List (String × Int) :=
  videos.map (fun v => (v, ctime v))

/-- The pipeline stages of `main.py`, in source order. -/
inductive Step where
  | scan
  | durationFilter
  | ageFilter
  | processedFilter
  | exitNoVideosStep
  | fetchPairings
  | fetchRank
  | upload
  | writeExcel
deriving DecidableEq, Repr

/-- Position of a stage in the pipeline (`exitNoVideosStep` and
`fetchPairings` are alternatives at the same position: one of the two
follows the spreadsheet filter). -/
def stageIndex : Step → Nat
  | .scan => 0
  | .durationFilter => 1
  | .ageFilter => 2
  | .processedFilter => 3
  | .exitNoVideosStep => 4
  | .fetchPairings => 4
  | .fetchRank => 5
  | .upload => 6
  | .writeExcel => 7

/-- How a run of `main` ends. `stuckPairings` covers the model-level
abnormal ends of the matchlist loop (out of fuel, `IndexError`,
`ValueError`); `crashedUpload` is the `TypeError` Python would raise when
`uploadGamesToYoutube` returns None and `main` iterates over it. -/
inductive MainOutcome where
  | exitNoVideos
  | exitMatchlistError
  | stuckPairings
  | exitMatchError
  | crashedUpload
  | finished (sheet : List (List (Option String)))
deriving DecidableEq, Repr

/-- The environment of one run of `main`: the scan result and the oracles
for every external collaborator. -/
structure MainEnv where
  files : List String
  probe : String → Option (ℚ × ℚ)
  ctime : String → Int
  now : Int
  sheet : List (List (Option String))
  fetch : Nat → Nat → Option MLResponse
  fetchMatch : String → Option (List MatchPlayer)
  gameName : String
  tagLine : String
  uploadVideo : Option String → Option String
  getPlaylistID : Option String
  createPlaylistID : String
  utc : String → Int
  utcDate : String → String
  fuel : Nat

/-- The first four filter stages of `main`: scan (`env.files`), the
20-minute duration filter, the 7-day age filter, and the
already-in-the-spreadsheet filter. -/
def procFiltered (env : MainEnv) : List String :=
  filterOutProcessedMatches env.sheet
    (filter_out_old_videos env.ctime
      (filter_out_short_videos env.probe env.files (20 * 60))
      (env.now - 60 * 60 * 24 * 7))

/-- The `ExcelMatchEntry` `main` builds for one pairing: match ID, date,
result and score from `getGameResult`, agent, map, the rank from
`getRankBeforeMatch` (whose API failure exits the program — `none` here),
no YouTube link yet, and the local video path. -/
def buildEntry (env : MainEnv) (pair : Pairing) : Option ExcelMatchEntry :=
  match getRankBeforeMatch env.fetchMatch env.gameName env.tagLine
      pair.match_data.meta_id with
  | none => none
  | some rank =>
    some { matchId := pair.match_data.meta_id,
           date := env.utcDate pair.match_data.started_at,
           matchResult := (getGameResult pair.match_data).1,
           score := (getGameResult pair.match_data).2,
           agent := pair.match_data.stats_character,
           map := pair.match_data.map_name,
           rank := rank,
           YTLink := none,
           localPath := some pair.video_path }

/-- `main.main`: the stages in source order.  After the spreadsheet
filter, an empty list exits at once (no remote API call, no upload);
otherwise the video dates are collected, `get_pairings` is called with the
default page size 10 and threshold `60 * 5` (an API error exits), the rank
loop builds the entries (an API error exits), the videos are uploaded, and
only then are the rows appended to the spreadsheet. -/
def mainRun (env : MainEnv) : List Step × MainOutcome :=
  if procFiltered env = [] then
    ([.scan, .durationFilter, .ageFilter, .processedFilter, .exitNoVideosStep],
      .exitNoVideos)
  else
    match get_pairings env.utc env.fetch
        (get_video_creation_dates env.ctime (procFiltered env)) 10 (60 * 5)
        env.now env.fuel with
    | .apiError =>
      ([.scan, .durationFilter, .ageFilter, .processedFilter, .fetchPairings],
        .exitMatchlistError)
    | .indexError =>
      ([.scan, .durationFilter, .ageFilter, .processedFilter, .fetchPairings],
        .stuckPairings)
    | .valueError =>
      ([.scan, .durationFilter, .ageFilter, .processedFilter, .fetchPairings],
        .stuckPairings)
    | .outOfFuel =>
      ([.scan, .durationFilter, .ageFilter, .processedFilter, .fetchPairings],
        .stuckPairings)
    | .ok pairings =>
      match pairings.mapM (buildEntry env) with
      | none =>
        ([.scan, .durationFilter, .ageFilter, .processedFilter, .fetchPairings,
          .fetchRank], .exitMatchError)
      | some entries =>
        match uploadGamesToYoutube env.getPlaylistID env.createPlaylistID
            env.uploadVideo entries with
        | none =>
          ([.scan, .durationFilter, .ageFilter, .processedFilter, .fetchPairings,
            .fetchRank, .upload], .crashedUpload)
        | some uploaded =>
          ([.scan, .durationFilter, .ageFilter, .processedFilter, .fetchPairings,
            .fetchRank, .upload, .writeExcel],
            .finished (writeMatchesToExcel env.sheet uploaded))

/-- **C4.** On every run, `main` performs the pipeline stages in source
order — scan, duration filter, age filter, spreadsheet filter, then either
the no-videos exit or: matchlist fetch and pairing, per-match rank fetch,
upload, and only after the upload the append to the spreadsheet (the trace
of stage positions is monotone); if no videos remain after the spreadsheet
filter, the run exits without the remote API stages and without
uploading. -/
theorem main_pipeline_order (env : MainEnv) :
    ((mainRun env).1).Pairwise (fun a b => stageIndex a ≤ stageIndex b)
    ∧ (mainRun env).1.take 4 =
        [Step.scan, Step.durationFilter, Step.ageFilter, Step.processedFilter]
    ∧ (procFiltered env = [] ↔ (mainRun env).2 = .exitNoVideos)
    ∧ (procFiltered env = [] ↔ (mainRun env).1 =
        [Step.scan, Step.durationFilter, Step.ageFilter, Step.processedFilter,
          Step.exitNoVideosStep])
    ∧ (Step.fetchPairings ∈ (mainRun env).1 ↔ procFiltered env ≠ [])
    ∧ (Step.fetchRank ∈ (mainRun env).1 → Step.fetchPairings ∈ (mainRun env).1)
    ∧ (Step.writeExcel ∈ (mainRun env).1 → Step.upload ∈ (mainRun env).1)
    ∧ (Step.writeExcel ∈ (mainRun env).1 ↔ ∃ s, (mainRun env).2 = .finished s) := by
  by_cases h : procFiltered env = []
  · have he : mainRun env =
        ([.scan, .durationFilter, .ageFilter, .processedFilter, .exitNoVideosStep],
          .exitNoVideos) := by
      unfold mainRun
      rw [if_pos h]
    have he1 : (mainRun env).1 =
        [.scan, .durationFilter, .ageFilter, .processedFilter, .exitNoVideosStep] := by
      rw [he]
    have he2 : (mainRun env).2 = .exitNoVideos := by rw [he]
    rw [he1, he2]
    exact ⟨by decide, by decide, ⟨fun _ => rfl, fun _ => h⟩, ⟨fun _ => rfl, fun _ => h⟩,
      iff_of_false (by decide) (by simp [h]), fun hc => absurd hc (by decide),
      fun hc => absurd hc (by decide),
      iff_of_false (by decide) (by rintro ⟨s, hs⟩; cases hs)⟩
  · rcases hgp : get_pairings env.utc env.fetch
        (get_video_creation_dates env.ctime (procFiltered env)) 10 (60 * 5)
        env.now env.fuel with pairings | - | - | - | -
    · rcases hbe : pairings.mapM (buildEntry env) with - | entries
      · have he : mainRun env =
            ([.scan, .durationFilter, .ageFilter, .processedFilter, .fetchPairings,
              .fetchRank], .exitMatchError) := by
          unfold mainRun
          rw [if_neg h, hgp]
          dsimp only
          rw [hbe]
        have he1 : (mainRun env).1 =
            [.scan, .durationFilter, .ageFilter, .processedFilter, .fetchPairings,
              .fetchRank] := by rw [he]
        have he2 : (mainRun env).2 = .exitMatchError := by rw [he]
        rw [he1, he2]
        exact ⟨by decide, by decide, iff_of_false h (by decide),
          iff_of_false h (by decide), iff_of_true (by decide) h,
          fun _ => by decide, fun hc => absurd hc (by decide),
          iff_of_false (by decide) (by rintro ⟨s, hs⟩; cases hs)⟩
      · rcases hup : uploadGamesToYoutube env.getPlaylistID env.createPlaylistID
            env.uploadVideo entries with - | uploaded
        · have he : mainRun env =
              ([.scan, .durationFilter, .ageFilter, .processedFilter, .fetchPairings,
                .fetchRank, .upload], .crashedUpload) := by
            unfold mainRun
            rw [if_neg h, hgp]
            dsimp only
            rw [hbe]
            dsimp only
            rw [hup]
          have he1 : (mainRun env).1 =
              [.scan, .durationFilter, .ageFilter, .processedFilter, .fetchPairings,
                .fetchRank, .upload] := by rw [he]
          have he2 : (mainRun env).2 = .crashedUpload := by rw [he]
          rw [he1, he2]
          exact ⟨by decide, by decide, iff_of_false h (by decide),
            iff_of_false h (by decide), iff_of_true (by decide) h,
            fun _ => by decide, fun hc => absurd hc (by decide),
            iff_of_false (by decide) (by rintro ⟨s, hs⟩; cases hs)⟩
        · have he : mainRun env =
              ([.scan, .durationFilter, .ageFilter, .processedFilter, .fetchPairings,
                .fetchRank, .upload, .writeExcel],
                .finished (writeMatchesToExcel env.sheet uploaded)) := by
            unfold mainRun
            rw [if_neg h, hgp]
            dsimp only
            rw [hbe]
            dsimp only
            rw [hup]
          have he1 : (mainRun env).1 =
              [.scan, .durationFilter, .ageFilter, .processedFilter, .fetchPairings,
                .fetchRank, .upload, .writeExcel] := by rw [he]
          have he2 : (mainRun env).2 =
              .finished (writeMatchesToExcel env.sheet uploaded) := by rw [he]
          rw [he1, he2]
          exact ⟨by decide, by decide, iff_of_false h (by simp),
            iff_of_false h (by decide), iff_of_true (by decide) h,
            fun _ => by decide, fun _ => by decide,
            iff_of_true (by decide) ⟨writeMatchesToExcel env.sheet uploaded, rfl⟩⟩
    · have he : mainRun env =
          ([.scan, .durationFilter, .ageFilter, .processedFilter, .fetchPairings],
            .exitMatchlistError) := by
        unfold mainRun
        rw [if_neg h, hgp]
      have he1 : (mainRun env).1 =
          [.scan, .durationFilter, .ageFilter, .processedFilter, .fetchPairings] := by
        rw [he]
      have he2 : (mainRun env).2 = .exitMatchlistError := by rw [he]
      rw [he1, he2]
      exact ⟨by decide, by decide, iff_of_false h (by decide),
        iff_of_false h (by decide), iff_of_true (by decide) h,
        fun _ => by decide, fun hc => absurd hc (by decide),
        iff_of_false (by decide) (by rintro ⟨s, hs⟩; cases hs)⟩
    · have he : mainRun env =
          ([.scan, .durationFilter, .ageFilter, .processedFilter, .fetchPairings],
            .stuckPairings) := by
        unfold mainRun
        rw [if_neg h, hgp]
      have he1 : (mainRun env).1 =
          [.scan, .durationFilter, .ageFilter, .processedFilter, .fetchPairings] := by
        rw [he]
      have he2 : (mainRun env).2 = .stuckPairings := by rw [he]
      rw [he1, he2]
      exact ⟨by decide, by decide, iff_of_false h (by decide),
        iff_of_false h (by decide), iff_of_true (by decide) h,
        fun _ => by decide, fun hc => absurd hc (by decide),
        iff_of_false (by decide) (by rintro ⟨s, hs⟩; cases hs)⟩
    · have he : mainRun env =
          ([.scan, .durationFilter, .ageFilter, .processedFilter, .fetchPairings],
            .stuckPairings) := by
        unfold mainRun
        rw [if_neg h, hgp]
      have he1 : (mainRun env).1 =
          [.scan, .durationFilter, .ageFilter, .processedFilter, .fetchPairings] := by
        rw [he]
      have he2 : (mainRun env).2 = .stuckPairings := by rw [he]
      rw [he1, he2]
      exact ⟨by decide, by decide, iff_of_false h (by decide),
        iff_of_false h (by decide), iff_of_true (by decide) h,
        fun _ => by decide, fun hc => absurd hc (by decide),
        iff_of_false (by decide) (by rintro ⟨s, hs⟩; cases hs)⟩
    · have he : mainRun env =
          ([.scan, .durationFilter, .ageFilter, .processedFilter, .fetchPairings],
            .stuckPairings) := by
        unfold mainRun
        rw [if_neg h, hgp]
      have he1 : (mainRun env).1 =
          [.scan, .durationFilter, .ageFilter, .processedFilter, .fetchPairings] := by
        rw [he]
      have he2 : (mainRun env).2 = .stuckPairings := by rw [he]
      rw [he1, he2]
      exact ⟨by decide, by decide, iff_of_false h (by decide),
        iff_of_false h (by decide), iff_of_true (by decide) h,
        fun _ => by decide, fun hc => absurd hc (by decide),
        iff_of_false (by decide) (by rintro ⟨s, hs⟩; cases hs)⟩

/-- A concrete environment for the C4 witness: nothing on disk, so the run
exits after the four filter stages. -/
def envW : MainEnv :=
  { files := [], probe := fun _ => none, ctime := fun _ => 0, now := 0,
    sheet := create, fetch := fun _ _ => none, fetchMatch := fun _ => none,
    gameName := "Yukia", tagLine := "SNOW", uploadVideo := fun _ => none,
    getPlaylistID := none, createPlaylistID := "pl", utc := fun _ => 0,
    utcDate := fun _ => "", fuel := 0 }

theorem main_pipeline_order_witness :
    procFiltered envW = [] ∧ (mainRun envW).2 = MainOutcome.exitNoVideos :=
  ⟨rfl, (main_pipeline_order envW).2.2.1.mp rfl⟩

end YTVODs
